import Mathlib

/-!
Verification of the ModifiedSpeedDial widget (modifedspeeddial.py).

Shallow embedding conventions:
- Coordinates, sizes, offsets, opacities and times are integers; the kivy
  metric function dp is modelled as multiplication by an integer display
  density.
- Python object identity of the generated widgets is modelled by a numeric
  tag wid; the window is modelled by its child list of such tags together
  with the set of tags that currently have a parent.
- Exceptions raised by the Python code (IndexError, KeyError,
  AttributeError, ValueError) are modelled with Except; animations and
  dispatched events are recorded as explicit effect values.
-/

namespace SpeedDial

/-- Models kivy.metrics.dp: converts density-independent pixels to raw pixels
by multiplying with the display density scale (an integer here). -/
def dp (density x : ℤ) : ℤ := density * x

/-- Embeds the class attribute _direction_vals of ModifiedSpeedDial: the sign
multiplier associated with each direction name. -/
def direction_vals : String → ℤ
  | "right" => 1
  | "top" => 1
  | "left" => -1
  | "bottom" => -1
  | _ => 0

/-- Embeds an MDFloatingBottomButton of the stack: icon, geometry and opacity,
plus wid, a tag modelling Python object identity for window membership. -/
structure BottomButton where
  wid : Nat
  icon : String
  x : ℤ
  y : ℤ
  width : ℤ
  height : ℤ
  opacity : ℤ
deriving DecidableEq, Repr

def BottomButton.center_x (b : BottomButton) : ℤ := b.x + b.width / 2

def BottomButton.center_y (b : BottomButton) : ℤ := b.y + b.height / 2

/-- Kivy center_x setter: assigns x so the horizontal center is v. -/
def BottomButton.set_center_x (b : BottomButton) (v : ℤ) : BottomButton :=
  { b with x := v - b.width / 2 }

/-- Kivy center_y setter: assigns y so the vertical center is v. -/
def BottomButton.set_center_y (b : BottomButton) (v : ℤ) : BottomButton :=
  { b with y := v - b.height / 2 }

/-- Kivy Widget.collide_point: self.x <= x <= self.right and
self.y <= y <= self.top. -/
def BottomButton.collide_point (b : BottomButton) (px py : ℤ) : Bool :=
  decide (b.x ≤ px ∧ px ≤ b.x + b.width ∧ b.y ≤ py ∧ py ≤ b.y + b.height)

/-- Embeds an MDFloatingLabel: hint text, geometry and opacity, plus the
identity tag wid. -/
structure FloatingLabel where
  wid : Nat
  text : String
  x : ℤ
  y : ℤ
  width : ℤ
  height : ℤ
  opacity : ℤ
deriving DecidableEq, Repr

def FloatingLabel.center_y (l : FloatingLabel) : ℤ := l.y + l.height / 2

/-- Kivy center_y setter on a label. -/
def FloatingLabel.set_center_y (l : FloatingLabel) (v : ℤ) : FloatingLabel :=
  { l with y := v - l.height / 2 }

/-- Kivy Widget.collide_point for a label. -/
def FloatingLabel.collide_point (l : FloatingLabel) (px py : ℤ) : Bool :=
  decide (l.x ≤ px ∧ px ≤ l.x + l.width ∧ l.y ≤ py ∧ py ≤ l.y + l.height)

/-- A value of the data mapping: either a plain icon-name string or a Python
list whose first element is the icon name (later elements configure press and
release callbacks, which are not modelled). -/
inductive DataVal
  | str (s : String)
  | list (items : List String)
deriving DecidableEq, Repr

/-- The icon name computed in on_data: the value itself when it is a string,
else the value's first element; none models the IndexError on an empty list. -/
def name_icon : DataVal → Option String
  | .str s => some s
  | .list items => items.head?

/-- Python equality icon == value: a string never equals a list. -/
def py_eq_str_val (icon : String) : DataVal → Bool
  | .str s => icon == s
  | .list _ => false

/-- Python indexing value[0]: the first character of a string (as a one-letter
string) or the first element of a list; none models an IndexError. -/
def py_first : DataVal → Option String
  | .str s => s.data.head?.map fun c => String.mk [c]
  | .list items => items.head?

/-- Python dict lookup data[k] over the insertion-ordered entry list; none
models a KeyError. -/
def data_lookup (entries : List (String × DataVal)) (k : String) : Option DataVal :=
  (entries.find? fun e => e.1 == k).map Prod.snd

/-- The configured icon of a mapping value as the specification words it: the
mapping value itself, or its first element when the value is a list. -/
def spec_configured_icon : DataVal → Option String
  | .str s => some s
  | .list items => items.head?

/-- The configuration properties read by the embedded operations, together
with the parent button's center (the stack is positioned relative to its
parent) and the toolkit measurements of freshly created widgets. -/
structure Config where
  density : ℤ
  label_direction : String
  stack_button_direction : String
  button_text_offset : ℤ
  auto_dismiss : Bool
  hint_animation : Bool
  parent_center_x : ℤ
  parent_center_y : ℤ
  button_size : ℤ
  label_height : ℤ
  label_width : String → ℤ

/-- The window as the widget sees it: none models self._window is None, and
some cs gives the window's child list; parented lists the widget tags that
currently have a parent (the kivy window sets itself as parent on add and
clears the parent on remove). -/
structure WinModel where
  window : Option (List Nat)
  parented : List Nat
deriving DecidableEq, Repr

/-- Embeds ModifiedSpeedDial.add_widget: the widget is added to the window
only when _window is set and the widget currently has no parent. -/
def add_widget (s : WinModel) (w : Nat) : WinModel :=
  match s.window with
  | none => s
  | some cs =>
    if w ∈ s.parented then s
    else { window := some (cs ++ [w]), parented := w :: s.parented }

/-- Embeds ModifiedSpeedDial.remove_widget: when _window is set, the window
removes the widget from its children, clearing its parent. -/
def remove_widget (s : WinModel) (w : Nat) : WinModel :=
  match s.window with
  | none => s
  | some cs =>
    if w ∈ cs then { window := some (cs.erase w), parented := s.parented.erase w }
    else s

/-- The traversal order of add_widgets and remove_widgets: per index the
button, then its label when present (an index beyond the labels list would be
an IndexError in Python; such a button is traversed alone here). -/
def stack_widget_ids : List BottomButton → List (Option FloatingLabel) → List Nat
  | [], _ => []
  | b :: bs, [] => b.wid :: stack_widget_ids bs []
  | b :: bs, none :: ls => b.wid :: stack_widget_ids bs ls
  | b :: bs, some l :: ls => b.wid :: l.wid :: stack_widget_ids bs ls

/-- Embeds add_widgets: adds every stack button and its label, in order. -/
def add_widgets (s : WinModel) (bs : List BottomButton)
    (ls : List (Option FloatingLabel)) : WinModel :=
  (stack_widget_ids bs ls).foldl add_widget s

/-- Embeds remove_widgets: removes every stack button and its label. -/
def remove_widgets (s : WinModel) (bs : List BottomButton)
    (ls : List (Option FloatingLabel)) : WinModel :=
  (stack_widget_ids bs ls).foldl remove_widget s

/-- How often a widget tag occurs among the window's children (zero when
there is no window). -/
def count_children (s : WinModel) (w : Nat) : Nat :=
  match s.window with
  | none => 0
  | some cs => cs.count w

/-- Observable effects dispatched or started by the open and close paths. -/
inductive Ev
  | on_open
  | on_close
  | window_anim_open
  | window_anim_close
  | add_widgets_run
  | button_close_anim (wid : Nat)
  | label_close_anim (wid : Nat)
deriving DecidableEq, Repr

/-- The mutable state of the widget touched by the embedded operations. The
anim caches model whether the class dictionaries _anim_buttons_data and
_anim_labels_data are non-empty. -/
structure SpeedDialState where
  state : String
  disabled : Bool
  touch_started_inside : Option Bool
  buttons : List BottomButton
  labels : List (Option FloatingLabel)
  local_positions : List ℤ
  anim_buttons_cached : Bool
  anim_labels_cached : Bool
  win : WinModel
  events : List Ev
deriving DecidableEq, Repr

/-- Core of set_pos_bottom_buttons once the local offset is looked up: centers
the button horizontally on the parent's center_x and vertically at the
parent's center_y plus the offset. -/
def set_pos_bottom_buttons_core (cfg : Config) (offset : ℤ) (b : BottomButton) :
    BottomButton :=
  (b.set_center_x cfg.parent_center_x).set_center_y (cfg.parent_center_y + offset)

/-- Embeds set_pos_bottom_buttons for the button at index i of _buttons: the
source computes i with _buttons.index and reads _local_positions at it. -/
def set_pos_bottom_buttons (cfg : Config) (lp : List ℤ) (i : Nat) (b : BottomButton) :
    BottomButton :=
  set_pos_bottom_buttons_core cfg (lp.getD i 0) b

/-- Core of set_pos_labels once the local offset is looked up: x is the
parent's center_x plus the direction-signed text offset, minus dp of the label
width for direction left; the vertical center is the parent's center_y plus
the offset. -/
def set_pos_labels_core (cfg : Config) (offset : ℤ) (l : FloatingLabel) :
    FloatingLabel :=
  let x1 := cfg.parent_center_x + cfg.button_text_offset * direction_vals cfg.label_direction
  let x2 := x1 - (if cfg.label_direction = "left" then dp cfg.density l.width else 0)
  FloatingLabel.set_center_y { l with x := x2 } (cfg.parent_center_y + offset)

/-- Embeds set_pos_labels for the label at index i of _labels. -/
def set_pos_labels (cfg : Config) (lp : List ℤ) (i : Nat) (l : FloatingLabel) :
    FloatingLabel :=
  set_pos_labels_core cfg (lp.getD i 0) l

/-- A fresh MDFloatingBottomButton as created in on_data, before positioning;
2 * i tags the button of the i-th entry. -/
def new_bottom_button (cfg : Config) (i : Nat) (icon : String) : BottomButton :=
  { wid := 2 * i, icon := icon, x := 0, y := 0,
    width := cfg.button_size, height := cfg.button_size, opacity := 0 }

/-- A fresh MDFloatingLabel as created in on_data; 2 * i + 1 tags the label of
the i-th entry. -/
def new_floating_label (cfg : Config) (i : Nat) (text : String) : FloatingLabel :=
  { wid := 2 * i + 1, text := text, x := 0, y := 0,
    width := cfg.label_width text, height := cfg.label_height, opacity := 0 }

/-- The clock-deferred body of on_data from entry index i on: per entry it
appends a bottom button, an optional label (None exactly for an empty label
string), a zero local position, and positions both widgets (the local
position just appended for them is zero). The error models the IndexError
raised when a list value is empty. -/
def on_data_build_go (cfg : Config) : Nat → List (String × DataVal) →
    Except String (List BottomButton × List (Option FloatingLabel) × List ℤ)
  | _, [] => .ok ([], [], [])
  | i, (name, v) :: rest =>
    match name_icon v with
    | none => .error "IndexError"
    | some icon =>
      let b := set_pos_bottom_buttons_core cfg 0 (new_bottom_button cfg i icon)
      let lab : Option FloatingLabel :=
        if name = "" then none
        else some (set_pos_labels_core cfg 0 (new_floating_label cfg i name))
      match on_data_build_go cfg (i + 1) rest with
      | .error e => .error e
      | .ok (bs, ls, lps) => .ok (b :: bs, lab :: ls, 0 :: lps)

/-- The deferred rebuild of on_data over the whole entry list. -/
def on_data_build (cfg : Config) (entries : List (String × DataVal)) :
    Except String (List BottomButton × List (Option FloatingLabel) × List ℤ) :=
  on_data_build_go cfg 0 entries

/-- The part of on_data run before the rebuild is scheduled: removes the old
widgets from the window and empties the three sequences and the anim caches. -/
def on_data_reset (s : SpeedDialState) : SpeedDialState :=
  { s with
    win := remove_widgets s.win s.buttons s.labels,
    buttons := [], labels := [], local_positions := [],
    anim_buttons_cached := false, anim_labels_cached := false }

/-- on_data followed by its clock-deferred rebuild. -/
def on_data_run (cfg : Config) (s : SpeedDialState)
    (entries : List (String × DataVal)) : Except String SpeedDialState :=
  match on_data_build cfg entries with
  | .error e => .error e
  | .ok (bs, ls, lps) =>
    .ok { on_data_reset s with buttons := bs, labels := ls, local_positions := lps }

/-- The fade-out animations started by close_stack over zip(_buttons,
_labels): every bottom button is animated back to the parent's center and to
zero opacity; a label is faded only when present with positive opacity. -/
def close_fade_events : List BottomButton → List (Option FloatingLabel) → List Ev
  | [], _ => []
  | _ :: _, [] => []
  | b :: bs, ol :: ls =>
    Ev.button_close_anim b.wid ::
      ((match ol with
        | some l => if 0 < l.opacity then [Ev.label_close_anim l.wid] else []
        | none => []) ++ close_fade_events bs ls)

/-- Embeds close_stack: starts the window resize-back animation (an
AttributeError when _window is None, since the source reads _window.size
first), fades the stack out, disables the widget, sets state to close and
dispatches on_close. -/
def close_stack (s : SpeedDialState) : Except String SpeedDialState :=
  match s.win.window with
  | none => .error "AttributeError"
  | some _ =>
    .ok { s with
      disabled := true,
      state := "close",
      events := s.events ++ [Ev.window_anim_close] ++
        close_fade_events s.buttons s.labels ++ [Ev.on_close] }

/-- The per-button loop of open_stack: advances the cumulative
direction-signed offset y by dp(56) per button, evaluates the store into
_local_positions that the source guards with the falsiness of the whole list
(an IndexError when the list is empty, a no-op otherwise), shifts the
button's center_y by y, aligns the label's center to the button and collects
the opacity animations when the matching anim cache is empty. The error on an
exhausted label list models the IndexError of _labels[i]. -/
def open_stack_loop (cfg : Config) (lpEmpty cachedB cachedL : Bool) :
    List BottomButton → List (Option FloatingLabel) → ℤ →
    Except String (List BottomButton × List (Option FloatingLabel) × List Nat × List Nat)
  | [], ols, _ => .ok ([], ols, [], [])
  | _ :: _, [], _ => .error "IndexError"
  | b :: bs, ol :: ls, y =>
    let y1 := y + dp cfg.density 56 * direction_vals cfg.stack_button_direction
    if lpEmpty then .error "IndexError"
    else
      let b1 : BottomButton := { b with y := b.y + y1 }
      let step : Option FloatingLabel × List Nat :=
        match ol with
        | some l => (some (l.set_center_y b1.center_y), if cachedL then [] else [l.wid])
        | none => (none, [])
      match open_stack_loop cfg lpEmpty cachedB cachedL bs ls y1 with
      | .error e => .error e
      | .ok (bs1, ls1, bw, lw1) =>
        .ok (b1 :: bs1, step.1 :: ls1,
          (if cachedB then [] else [b.wid]) ++ bw, step.2 ++ lw1)

/-- Embeds open_stack: toggles through close_stack when already open.
Otherwise it records the root window rw into _window, runs the button loop
from the initial offset 30 times the direction sign, refreshes the anim
caches (labels only without hint animation), enables the widget, sets state
open, dispatches on_open and runs do_animation_open_stack for the button and
the label animations; each of those two calls starts a window-size animation
whose on_start handler runs add_widgets at once. -/
def open_stack (cfg : Config) (s : SpeedDialState) (rw : List Nat) :
    Except String SpeedDialState :=
  if s.state ≠ "open" then
    match open_stack_loop cfg s.local_positions.isEmpty s.anim_buttons_cached
        s.anim_labels_cached s.buttons s.labels
        (30 * direction_vals cfg.stack_button_direction) with
    | .error e => .error e
    | .ok (bs, ls, bw, lw) =>
      .ok { s with
        buttons := bs, labels := ls,
        anim_buttons_cached := s.anim_buttons_cached || !bw.isEmpty,
        anim_labels_cached :=
          s.anim_labels_cached || (!lw.isEmpty && !cfg.hint_animation),
        win := add_widgets (add_widgets
          { s.win with window := some (s.win.window.getD rw) } bs ls) bs ls,
        disabled := false, state := "open",
        events := s.events ++ [Ev.on_open, Ev.window_anim_open, Ev.add_widgets_run,
          Ev.window_anim_open, Ev.add_widgets_run] }
  else close_stack s

/-- The observable steps of one open sequence. -/
inductive OpenEv
  | widgets_added
  | opacity_anim_started (i : Nat)
  | touch_bound
deriving DecidableEq, Repr

/-- One dispatched callback of the open sequence: time orders the toolkit
clock and seq orders callbacks dispatched at the same time. -/
structure TimedEvent where
  time : ℤ
  seq : Nat
  ev : OpenEv
deriving DecidableEq, Repr

/-- Embeds the timing of do_animation_open_stack for n chained opacity
animations of duration d under kivy animation semantics: the window-size
animation starts at time 0 and its on_start handler (which runs add_widgets)
is dispatched first; opacity animation i is started once animation i - 1
reaches 10 percent progress, hence at time i * d / 10; the window animation's
on_complete handler (open_binding, which binds touch_down, touch_move and
touch_up on the window) is dispatched at time d, after every handler
dispatched at an earlier time and after the same-time on_start handler. -/
def do_animation_open_stack_schedule (n : Nat) (d : ℤ) : List TimedEvent :=
  { time := 0, seq := 0, ev := OpenEv.widgets_added } ::
    ((List.range n).map fun i =>
      { time := d * (i : ℤ) / 10, seq := i + 1, ev := OpenEv.opacity_anim_started i }) ++
    [{ time := d, seq := n + 1, ev := OpenEv.touch_bound }]

/-- Dispatch order between two timed callbacks. -/
def dispatches_before (a b : TimedEvent) : Prop :=
  a.time < b.time ∨ (a.time = b.time ∧ a.seq < b.seq)

/-- Python truthiness of the _touch_started_inside field (None is falsy). -/
def truthy : Option Bool → Bool
  | none => false
  | some b => b

/-- Forwarding and dismissal effects of the touch handlers. -/
inductive TouchEffect
  | forward_down
  | forward_move
  | forward_up
  | close_invoked
deriving DecidableEq, Repr

/-- The collision scan of touch_down over _buttons + _labels: the Python list
comprehension calls collide_point on every element before any() is taken, so
any None label raises an AttributeError. -/
def collide_any (buttons : List BottomButton) (labels : List (Option FloatingLabel))
    (px py : ℤ) : Except String Bool :=
  if labels.any fun ol => ol.isNone then .error "AttributeError"
  else
    .ok (buttons.any (fun b => b.collide_point px py) ||
      labels.any fun ol => (ol.map fun l => l.collide_point px py).getD false)

/-- Embeds touch_down: stores the classification in _touch_started_inside,
forwards the event to the window when dismissal is off or the touch started
inside, and consumes the event (returns True). -/
def touch_down (cfg : Config) (s : SpeedDialState) (px py : ℤ) :
    Except String (SpeedDialState × List TouchEffect × Bool) :=
  match collide_any s.buttons s.labels px py with
  | .error e => .error e
  | .ok inside =>
    .ok ({ s with touch_started_inside := some inside },
      if !cfg.auto_dismiss || inside then [TouchEffect.forward_down] else [],
      true)

/-- Embeds touch_move: forwards under the same condition as touch_down, with
the stored flag read back through Python truthiness. -/
def touch_move (cfg : Config) (s : SpeedDialState) :
    SpeedDialState × List TouchEffect × Bool :=
  (s,
   if !cfg.auto_dismiss || truthy s.touch_started_inside then [TouchEffect.forward_move]
   else [],
   true)

/-- Embeds touch_up: calls close_stack exactly when auto_dismiss is on and
_touch_started_inside is the value False (not None), otherwise forwards to
the window; always clears the flag to None and returns True. -/
def touch_up (cfg : Config) (s : SpeedDialState) :
    Except String (SpeedDialState × List TouchEffect × Bool) :=
  if cfg.auto_dismiss && s.touch_started_inside == some false then
    match close_stack s with
    | .error e => .error e
    | .ok s1 =>
      .ok ({ s1 with touch_started_inside := none }, [TouchEffect.close_invoked], true)
  else
    .ok ({ s with touch_started_inside := none }, [TouchEffect.forward_up], true)

/-- The capability of the widget's new parent as checked with hasattr in
on_parent. -/
structure ParentWidget where
  has_on_press : Bool
  has_on_release : Bool
deriving DecidableEq, Repr

/-- The method bound by a successful on_parent. -/
inductive BoundHandler
  | open_stack_method
deriving DecidableEq, Repr

/-- Embeds on_parent: binds open_stack to the parent's on_release when the
parent has both on_release and on_press, else raises ValueError. -/
def on_parent (p : ParentWidget) : Except String (String × BoundHandler) :=
  if p.has_on_release && p.has_on_press then
    .ok ("on_release", BoundHandler.open_stack_method)
  else .error "Parent Widget must be a Button"

/-- Direction of the label animation a hover handler starts. -/
inductive FadeTarget
  | fade_in
  | fade_out
deriving DecidableEq, Repr

/-- The outcome of a hover handler: nothing started, a raised exception, or
the background-strip animation started on the button (towards the given
canvas width) together with the direction of the label animation. -/
inductive HoverResult
  | no_action
  | hover_raise (msg : String)
  | started (canvas_width : ℤ) (fade : FadeTarget)
deriving DecidableEq, Repr

/-- Embeds on_enter: acts only while open; looks the paired label up at the
button's index; when the label exists and hint animation is on, starts the
background-strip animation and fades the label in when the button's icon
equals data[label.text] or equals its first element, else fades it out. -/
def on_enter (cfg : Config) (s : SpeedDialState) (data : List (String × DataVal))
    (b : BottomButton) : HoverResult :=
  if s.state = "open" then
    if b ∈ s.buttons then
      match s.labels.get? (s.buttons.indexOf b) with
      | none => HoverResult.hover_raise "IndexError"
      | some none => HoverResult.no_action
      | some (some label) =>
        if cfg.hint_animation then
          let w := -1 * (label.width + cfg.button_text_offset) *
            direction_vals cfg.label_direction
          match data_lookup data label.text with
          | none => HoverResult.hover_raise "KeyError"
          | some v =>
            if py_eq_str_val b.icon v then HoverResult.started w FadeTarget.fade_in
            else
              match py_first v with
              | none => HoverResult.hover_raise "IndexError"
              | some f =>
                HoverResult.started w
                  (if b.icon == f then FadeTarget.fade_in else FadeTarget.fade_out)
        else HoverResult.no_action
    else HoverResult.hover_raise "ValueError"
  else HoverResult.no_action

/-- Embeds on_leave: under the same preconditions as on_enter it collapses
the background strip (canvas width back to 0) and fades the label out. -/
def on_leave (cfg : Config) (s : SpeedDialState) (b : BottomButton) : HoverResult :=
  if s.state = "open" then
    if b ∈ s.buttons then
      match s.labels.get? (s.buttons.indexOf b) with
      | none => HoverResult.hover_raise "IndexError"
      | some none => HoverResult.no_action
      | some (some _) =>
        if cfg.hint_animation then HoverResult.started 0 FadeTarget.fade_out
        else HoverResult.no_action
    else HoverResult.hover_raise "ValueError"
  else HoverResult.no_action

/-! Concrete instances used for evaluating the operations at specific
inputs. -/

/-- A baseline configuration: density 1, labels to the right, stack growing
upwards, the default 33-pixel text offset, dismissal on, hint animation off,
parent centered at (100, 100). -/
def baseCfg : Config :=
  { density := 1, label_direction := "right", stack_button_direction := "top",
    button_text_offset := 33, auto_dismiss := true, hint_animation := false,
    parent_center_x := 100, parent_center_y := 100,
    button_size := 46, label_height := 20,
    label_width := fun t => 10 * (t.length : ℤ) }

/-- A stack button sitting at the parent's center with a 46-pixel square
footprint. -/
def exButton : BottomButton :=
  { wid := 0, icon := "plus", x := 77, y := 77, width := 46, height := 46, opacity := 0 }

/-- A label paired with exButton. -/
def exLabel : FloatingLabel :=
  { wid := 1, text := "add", x := 133, y := 90, width := 30, height := 20, opacity := 0 }

/-- A closed one-button state whose window is not yet recorded. -/
def exClosed : SpeedDialState :=
  { state := "close", disabled := true, touch_started_inside := none,
    buttons := [exButton], labels := [some exLabel], local_positions := [0],
    anim_buttons_cached := false, anim_labels_cached := false,
    win := { window := none, parented := [] }, events := [] }

/-- An open one-button state with the window recorded and both widgets added. -/
def exOpen : SpeedDialState :=
  { state := "open", disabled := false, touch_started_inside := none,
    buttons := [exButton], labels := [some exLabel], local_positions := [0],
    anim_buttons_cached := true, anim_labels_cached := true,
    win := { window := some [0, 1], parented := [0, 1] }, events := [] }

/-- An open one-button state whose entry has no hint label. -/
def exOpenNoLabel : SpeedDialState :=
  { state := "open", disabled := false, touch_started_inside := none,
    buttons := [exButton], labels := [none], local_positions := [0],
    anim_buttons_cached := true, anim_labels_cached := false,
    win := { window := some [0], parented := [0] }, events := [] }

/-- The open state with a touch classified as started inside. -/
def exOpenInside : SpeedDialState :=
  { exOpen with touch_started_inside := some true }

/-! Basic lemmas about the window model. -/

theorem add_widget_of_window_none {s : WinModel} (h : s.window = none) (w : Nat) :
    add_widget s w = s := by
  obtain ⟨win, par⟩ := s
  cases win with
  | none => rfl
  | some cs => simp at h

theorem add_widget_of_parented {s : WinModel} {w : Nat} (h : w ∈ s.parented) :
    add_widget s w = s := by
  obtain ⟨win, par⟩ := s
  cases win with
  | none => rfl
  | some cs =>
    simp only [add_widget]
    rw [if_pos h]

theorem add_widget_window_none_iff (s : WinModel) (v : Nat) :
    ((add_widget s v).window = none ↔ s.window = none) := by
  obtain ⟨win, par⟩ := s
  cases win with
  | none => exact Iff.rfl
  | some cs =>
    simp only [add_widget]
    by_cases hp : v ∈ par
    · rw [if_pos hp]
    · rw [if_neg hp]
      simp

theorem parented_subset_add_widget (s : WinModel) (v : Nat) :
    s.parented ⊆ (add_widget s v).parented := by
  obtain ⟨win, par⟩ := s
  cases win with
  | none => exact fun a ha => ha
  | some cs =>
    simp only [add_widget]
    by_cases hp : v ∈ par
    · rw [if_pos hp]
      exact fun a ha => ha
    · rw [if_neg hp]
      exact fun a ha => List.mem_cons_of_mem v ha

theorem mem_parented_add_widget (s : WinModel) (w : Nat) (hw : s.window ≠ none) :
    w ∈ (add_widget s w).parented := by
  obtain ⟨win, par⟩ := s
  cases win with
  | none => exact absurd rfl hw
  | some cs =>
    simp only [add_widget]
    by_cases hp : w ∈ par
    · rw [if_pos hp]
      exact hp
    · rw [if_neg hp]
      exact List.mem_cons_self w par

theorem foldl_add_widget_window_none (ws : List Nat) (s : WinModel)
    (h : s.window = none) : ws.foldl add_widget s = s := by
  induction ws with
  | nil => rfl
  | cons v rest ih =>
    simp only [List.foldl_cons, add_widget_of_window_none h]
    exact ih

theorem parented_subset_foldl_add_widget (ws : List Nat) (s : WinModel) :
    s.parented ⊆ (ws.foldl add_widget s).parented := by
  induction ws generalizing s with
  | nil => exact fun a ha => ha
  | cons v rest ih =>
    intro a ha
    exact ih (add_widget s v) (parented_subset_add_widget s v ha)

theorem foldl_add_widget_all_parented (ws : List Nat) (s : WinModel)
    (hw : s.window ≠ none) :
    ∀ w ∈ ws, w ∈ (ws.foldl add_widget s).parented := by
  induction ws generalizing s with
  | nil => intro w hmem; exact absurd hmem (List.not_mem_nil w)
  | cons v rest ih =>
    intro w hmem
    rcases List.mem_cons.mp hmem with h | h
    · subst h
      exact parented_subset_foldl_add_widget rest (add_widget s w)
        (mem_parented_add_widget s w hw)
    · have hw2 : (add_widget s v).window ≠ none := fun hn =>
        hw ((add_widget_window_none_iff s v).mp hn)
      exact ih (add_widget s v) hw2 w h

theorem foldl_add_widget_of_all_parented (ws : List Nat) (s : WinModel)
    (h : ∀ w ∈ ws, w ∈ s.parented) : ws.foldl add_widget s = s := by
  induction ws with
  | nil => rfl
  | cons v rest ih =>
    have hv : add_widget s v = s := add_widget_of_parented (h v (List.mem_cons_self v rest))
    simp only [List.foldl_cons, hv]
    exact ih fun w hw => h w (List.mem_cons_of_mem v hw)

theorem foldl_add_widget_idem (ws : List Nat) (s : WinModel) :
    ws.foldl add_widget (ws.foldl add_widget s) = ws.foldl add_widget s := by
  cases hw : s.window with
  | none =>
    rw [foldl_add_widget_window_none ws s hw, foldl_add_widget_window_none ws s hw]
  | some cs =>
    exact foldl_add_widget_of_all_parented ws _ fun w hmem =>
      foldl_add_widget_all_parented ws s (by rw [hw]; exact fun h => Option.noConfusion h)
        w hmem

theorem count_children_add_widget_parented (s : WinModel) (v w : Nat)
    (h : w ∈ s.parented) :
    count_children (add_widget s v) w = count_children s w := by
  obtain ⟨win, par⟩ := s
  cases win with
  | none => rfl
  | some cs =>
    simp only [add_widget] at *
    by_cases hp : v ∈ par
    · rw [if_pos hp]
    · rw [if_neg hp]
      have hne : v ≠ w := fun he => hp (he ▸ h)
      simp only [count_children, List.count_append]
      have h1 : List.count w [v] = 0 := by
        simp [List.count_singleton']
        exact fun he => hne he
      omega

theorem count_children_foldl_add_widget_parented (ws : List Nat) (s : WinModel)
    (w : Nat) (h : w ∈ s.parented) :
    count_children (ws.foldl add_widget s) w = count_children s w := by
  induction ws generalizing s with
  | nil => rfl
  | cons v rest ih =>
    have hp : w ∈ (add_widget s v).parented := parented_subset_add_widget s v h
    simp only [List.foldl_cons]
    rw [ih (add_widget s v) hp, count_children_add_widget_parented s v w h]

theorem count_children_add_widget_le (s : WinModel) (v w : Nat) :
    count_children (add_widget s v) w ≤ count_children s w + 1 := by
  obtain ⟨win, par⟩ := s
  cases win with
  | none => exact Nat.le_succ _
  | some cs =>
    simp only [add_widget]
    by_cases hp : v ∈ par
    · rw [if_pos hp]
      exact Nat.le_succ _
    · rw [if_neg hp]
      simp only [count_children, List.count_append]
      have h1 : List.count w [v] ≤ 1 := by
        simp [List.count_singleton']
        split <;> omega
      omega

theorem count_children_add_widget_of_ne (s : WinModel) {v w : Nat} (hne : v ≠ w) :
    count_children (add_widget s v) w = count_children s w := by
  obtain ⟨win, par⟩ := s
  cases win with
  | none => rfl
  | some cs =>
    simp only [add_widget]
    by_cases hp : v ∈ par
    · rw [if_pos hp]
    · rw [if_neg hp]
      simp only [count_children, List.count_append]
      have h1 : List.count w [v] = 0 := by
        simp [List.count_singleton']
        exact fun he => hne he
      omega

theorem count_children_foldl_add_widget_le (ws : List Nat) (s : WinModel) (w : Nat) :
    count_children (ws.foldl add_widget s) w ≤ count_children s w + 1 := by
  induction ws generalizing s with
  | nil => exact Nat.le_succ _
  | cons v rest ih =>
    simp only [List.foldl_cons]
    by_cases hvw : v = w
    · subst hvw
      by_cases hp : v ∈ s.parented
      · rw [add_widget_of_parented hp]
        exact ih s
      · cases hwin : s.window with
        | none =>
          rw [add_widget_of_window_none hwin]
          exact ih s
        | some cs =>
          have hmem : v ∈ (add_widget s v).parented :=
            mem_parented_add_widget s v (by rw [hwin]; exact fun h => Option.noConfusion h)
          rw [count_children_foldl_add_widget_parented rest (add_widget s v) v hmem]
          exact count_children_add_widget_le s v v
    · have heq := count_children_add_widget_of_ne s hvw
      calc count_children (rest.foldl add_widget (add_widget s v)) w
          ≤ count_children (add_widget s v) w + 1 := ih (add_widget s v)
        _ = count_children s w + 1 := by rw [heq]

/-! Lemmas about widget removal, used for the teardown in on_data. -/

theorem remove_widget_count_le (s : WinModel) (v w : Nat) :
    count_children (remove_widget s v) w ≤ count_children s w := by
  obtain ⟨win, par⟩ := s
  cases win with
  | none => exact Nat.le_refl _
  | some cs =>
    simp only [remove_widget]
    by_cases hv : v ∈ cs
    · rw [if_pos hv]
      simp only [count_children]
      by_cases hvw : w = v
      · subst hvw
        rw [List.count_erase_self]
        exact Nat.sub_le _ _
      · rw [List.count_erase_of_ne hvw]
    · rw [if_neg hv]

theorem remove_widget_nodup (s : WinModel) (v : Nat)
    (h : ∀ cs, s.window = some cs → cs.Nodup) :
    ∀ cs, (remove_widget s v).window = some cs → cs.Nodup := by
  obtain ⟨win, par⟩ := s
  cases win with
  | none => exact h
  | some cs0 =>
    simp only [remove_widget]
    by_cases hv : v ∈ cs0
    · rw [if_pos hv]
      intro cs hcs
      simp only at hcs
      rw [← Option.some_inj.mp hcs]
      exact (h cs0 rfl).erase v
    · rw [if_neg hv]
      exact h

theorem remove_widget_count_self (s : WinModel) (w : Nat)
    (h : ∀ cs, s.window = some cs → cs.Nodup) :
    count_children (remove_widget s w) w = 0 := by
  obtain ⟨win, par⟩ := s
  cases win with
  | none => rfl
  | some cs =>
    simp only [remove_widget]
    by_cases hv : w ∈ cs
    · rw [if_pos hv]
      simp only [count_children]
      rw [List.count_erase_self]
      have h1 : cs.count w ≤ 1 := List.nodup_iff_count_le_one.mp (h cs rfl) w
      omega
    · rw [if_neg hv]
      simp only [count_children]
      exact List.count_eq_zero_of_not_mem hv

theorem foldl_remove_widget_count_le (ws : List Nat) (s : WinModel) (w : Nat) :
    count_children (ws.foldl remove_widget s) w ≤ count_children s w := by
  induction ws generalizing s with
  | nil => exact Nat.le_refl _
  | cons v rest ih =>
    simp only [List.foldl_cons]
    exact Nat.le_trans (ih (remove_widget s v)) (remove_widget_count_le s v w)

theorem foldl_remove_widget_count_zero (ws : List Nat) (s : WinModel)
    (hnd : ∀ cs, s.window = some cs → cs.Nodup) :
    ∀ w ∈ ws, count_children (ws.foldl remove_widget s) w = 0 := by
  induction ws generalizing s with
  | nil => intro w hw; exact absurd hw (List.not_mem_nil w)
  | cons v rest ih =>
    intro w hw
    rcases List.mem_cons.mp hw with h | h
    · subst h
      have h0 : count_children (remove_widget s w) w = 0 :=
        remove_widget_count_self s w hnd
      have hle := foldl_remove_widget_count_le rest (remove_widget s w) w
      simp only [List.foldl_cons]
      omega
    · exact ih (remove_widget s v) (remove_widget_nodup s v hnd) w h

theorem dispatches_before_of_nonneg_time {t : ℤ} {k : Nat} (ht : 0 ≤ t)
    (e f : OpenEv) :
    dispatches_before (TimedEvent.mk 0 0 e) (TimedEvent.mk t (k + 1) f) := by
  rcases lt_or_eq_of_le ht with h | h
  · exact Or.inl h
  · exact Or.inr ⟨h, Nat.succ_pos k⟩

/-- C6: on_parent raises the configuration error (ValueError) exactly when
the parent lacks on_press or on_release; a capable parent raises nothing and
open_stack is bound to the parent's on_release. -/
theorem on_parent_error_iff (p : ParentWidget) :
    (on_parent p = Except.error "Parent Widget must be a Button" ↔
      ¬ (p.has_on_press = true ∧ p.has_on_release = true)) ∧
    (p.has_on_press = true ∧ p.has_on_release = true →
      on_parent p = Except.ok ("on_release", BoundHandler.open_stack_method)) := by
  obtain ⟨press, rel⟩ := p
  cases press <;> cases rel <;> simp [on_parent]

/-- Witness for C6 at a capable and an incapable parent. -/
theorem on_parent_error_iff_witness :
    on_parent (ParentWidget.mk true true) =
      Except.ok ("on_release", BoundHandler.open_stack_method) ∧
    on_parent (ParentWidget.mk false true) =
      Except.error "Parent Widget must be a Button" :=
  ⟨(on_parent_error_iff (ParentWidget.mk true true)).2 ⟨rfl, rfl⟩, rfl⟩

/-- C10: add_widget does nothing when the window reference is unset or the
widget already has a parent; hence add_widgets is idempotent, a parented
widget is never re-added, and each widget enters the window's child list at
most once per rebuild. -/
theorem add_widgets_idempotent_claim (s : WinModel) (bs : List BottomButton)
    (ls : List (Option FloatingLabel)) (w : Nat)
    (h : s.window = none ∨ w ∈ s.parented) :
    add_widget s w = s ∧
    add_widgets (add_widgets s bs ls) bs ls = add_widgets s bs ls ∧
    (∀ v : Nat, count_children (add_widgets s bs ls) v ≤ count_children s v + 1) ∧
    (w ∈ s.parented → count_children (add_widgets s bs ls) w = count_children s w) := by
  refine ⟨?_, foldl_add_widget_idem (stack_widget_ids bs ls) s,
    fun v => count_children_foldl_add_widget_le (stack_widget_ids bs ls) s v,
    fun hp => count_children_foldl_add_widget_parented (stack_widget_ids bs ls) s w hp⟩
  rcases h with h | h
  · exact add_widget_of_window_none h w
  · exact add_widget_of_parented h

/-- Witness for C10: without a window, adding is a no-op. -/
theorem add_widgets_idempotent_claim_witness :
    ((WinModel.mk none []).window = none ∨ 5 ∈ (WinModel.mk none []).parented) ∧
    add_widget (WinModel.mk none []) 5 = WinModel.mk none [] :=
  ⟨Or.inl rfl,
    (add_widgets_idempotent_claim (WinModel.mk none []) [] [] 5 (Or.inl rfl)).1⟩

/-- C5: in the schedule of the open sequence, the widgets are added by the
on_start handler of the window-resize animation (dispatched at time 0,
first), the touch handlers are bound by its on_complete handler at time d
(the animation's completion), and every other dispatched step comes strictly
after the widgets are added; so touch binding never precedes widget adding
and no touch dismissal can happen before the open sequence completes. -/
theorem open_sequence_ordering (n : Nat) (d : ℤ) (hd : 0 ≤ d) :
    (TimedEvent.mk 0 0 OpenEv.widgets_added ∈ do_animation_open_stack_schedule n d) ∧
    (∃ e ∈ do_animation_open_stack_schedule n d,
      e.ev = OpenEv.touch_bound ∧ e.time = d ∧
      dispatches_before (TimedEvent.mk 0 0 OpenEv.widgets_added) e) ∧
    (∀ e ∈ do_animation_open_stack_schedule n d, e.ev ≠ OpenEv.widgets_added →
      dispatches_before (TimedEvent.mk 0 0 OpenEv.widgets_added) e) := by
  refine ⟨List.mem_cons_self _ _, ?_, ?_⟩
  · refine ⟨TimedEvent.mk d (n + 1) OpenEv.touch_bound, ?_, rfl, rfl,
      dispatches_before_of_nonneg_time hd _ _⟩
    unfold do_animation_open_stack_schedule
    exact List.mem_cons_of_mem _ (List.mem_append_right _ (List.mem_singleton.mpr rfl))
  · intro e hmem hne
    unfold do_animation_open_stack_schedule at hmem
    rcases List.mem_cons.mp hmem with h | h
    · subst h
      exact absurd rfl hne
    · rcases List.mem_append.mp h with h2 | h2
      · obtain ⟨i, hi, rfl⟩ := List.mem_map.mp h2
        exact dispatches_before_of_nonneg_time
          (Int.ediv_nonneg (by positivity) (by norm_num)) _ _
      · rcases List.mem_singleton.mp h2 with rfl
        exact dispatches_before_of_nonneg_time hd _ _

/-- Witness for C5 with two chained animations of duration 10. -/
theorem open_sequence_ordering_witness :
    (0 : ℤ) ≤ 10 ∧
    TimedEvent.mk 0 0 OpenEv.widgets_added ∈ do_animation_open_stack_schedule 2 10 :=
  ⟨by decide, (open_sequence_ordering 2 10 (by decide)).1⟩

/-- C4 (claim right, code wrong): opening a one-button stack computes the
cumulative offset direction * (30 + dp(56)) = 86, but never stores it:
_local_positions stays [0] because the store is guarded by the falsiness of
the whole list (a guard that would raise IndexError were the list empty); the
positioning method therefore places the button at the parent's center_y
instead of center_y + 86 as the claim states. -/
theorem open_stack_offset_never_stored :
    ((open_stack baseCfg exClosed []).map fun s2 => s2.local_positions) =
      Except.ok [(0 : ℤ)] ∧
    direction_vals baseCfg.stack_button_direction * (30 + dp baseCfg.density 56) = 86 ∧
    (set_pos_bottom_buttons baseCfg [0] 0 exButton).center_y =
      baseCfg.parent_center_y ∧
    baseCfg.parent_center_y + 86 ≠ baseCfg.parent_center_y := by
  refine ⟨rfl, by decide, by decide, by decide⟩

/-! The two-state machine of open_stack and close_stack. -/


/-- The state produced by a successful close_stack. -/
def close_stack_result (s : SpeedDialState) : SpeedDialState :=
  { s with
    disabled := true,
    state := "close",
    events := s.events ++ [Ev.window_anim_close] ++
      close_fade_events s.buttons s.labels ++ [Ev.on_close] }

theorem close_stack_eq (s : SpeedDialState) (cs : List Nat)
    (hwin : s.win.window = some cs) :
    close_stack s = Except.ok (close_stack_result s) := by
  unfold close_stack
  rw [hwin]
  rfl

theorem open_stack_loop_ne_error (cfg : Config) (cB cL : Bool)
    (bs : List BottomButton) (ls : List (Option FloatingLabel)) (y : ℤ)
    (hlen : bs.length ≤ ls.length) :
    ∀ e : String, open_stack_loop cfg false cB cL bs ls y ≠ Except.error e := by
  induction bs generalizing ls y with
  | nil =>
    intro e h
    simp [open_stack_loop] at h
  | cons b rest ih =>
    cases ls with
    | nil => simp at hlen
    | cons ol ls1 =>
      intro e h
      simp only [open_stack_loop] at h
      rw [if_neg Bool.false_ne_true] at h
      cases hrec : open_stack_loop cfg false cB cL rest ls1
          (y + dp cfg.density 56 * direction_vals cfg.stack_button_direction) with
      | error e2 =>
        exact ih ls1 (y + dp cfg.density 56 * direction_vals cfg.stack_button_direction)
          (by simpa using hlen) e2 hrec
      | ok r =>
        obtain ⟨bs1, ls2, bw, lw⟩ := r
        rw [hrec] at h
        simp at h

/-- C2: the two-state machine: open_stack on an open stack toggles by calling
close_stack; close_stack (whenever _window is set, which holds in the open
state) closes, disables and dispatches on_close; open_stack on a non-open
stack sets state open, enables the widget and dispatches on_open. -/
theorem open_close_state_machine (cfg : Config) (s : SpeedDialState)
    (rw cs : List Nat)
    (hwin : s.win.window = some cs)
    (hlen : s.buttons.length ≤ s.labels.length)
    (hlp : s.buttons = [] ∨ s.local_positions ≠ []) :
    (s.state = "open" → open_stack cfg s rw = close_stack s) ∧
    (∃ s1, close_stack s = Except.ok s1 ∧ s1.state = "close" ∧
      s1.disabled = true ∧ Ev.on_close ∈ s1.events) ∧
    (s.state ≠ "open" → ∃ s2, open_stack cfg s rw = Except.ok s2 ∧
      s2.state = "open" ∧ s2.disabled = false ∧ Ev.on_open ∈ s2.events) := by
  refine ⟨?_, ?_, ?_⟩
  · intro hs
    unfold open_stack
    rw [if_neg (by simp [hs])]
  · refine ⟨close_stack_result s, close_stack_eq s cs hwin, rfl, rfl, ?_⟩
    unfold close_stack_result
    simp
  · intro hs
    unfold open_stack
    rw [if_pos hs]
    cases hloop : open_stack_loop cfg s.local_positions.isEmpty
        s.anim_buttons_cached s.anim_labels_cached s.buttons s.labels
        (30 * direction_vals cfg.stack_button_direction) with
    | error e =>
      exfalso
      rcases hlp with hbs | hlp2
      · rw [hbs] at hloop
        simp [open_stack_loop] at hloop
      · have hlpE : s.local_positions.isEmpty = false := by
          cases hlpl : s.local_positions with
          | nil => exact absurd hlpl hlp2
          | cons a l => rfl
        rw [hlpE] at hloop
        exact open_stack_loop_ne_error cfg _ _ s.buttons s.labels _ hlen e hloop
    | ok r =>
      obtain ⟨bs, ls, bw, lw⟩ := r
      exact ⟨_, rfl, rfl, rfl, by simp⟩

/-- Witness for C2: toggling an open one-button stack goes through
close_stack. -/
theorem open_close_state_machine_witness :
    exOpen.state = "open" ∧
    open_stack baseCfg exOpen [] = close_stack exOpen :=
  ⟨rfl, (open_close_state_machine baseCfg exOpen [] [0, 1] rfl (by decide)
    (Or.inr (by decide))).1 rfl⟩

/-! The touch handlers. -/

theorem collide_any_ok (buttons : List BottomButton)
    (labels : List (Option FloatingLabel)) (px py : ℤ)
    (hlab : ∀ ol ∈ labels, ol ≠ none) :
    collide_any buttons labels px py =
      Except.ok (buttons.any (fun b => b.collide_point px py) ||
        labels.any fun ol => (ol.map fun l => l.collide_point px py).getD false) := by
  unfold collide_any
  rw [if_neg ?hc]
  case hc =>
    simp only [List.any_eq_true, not_exists]
    intro ol
    rintro ⟨hmem, hnone⟩
    exact hlab ol hmem (Option.isNone_iff_eq_none.mp hnone)

theorem option_collide_getD (ol : Option FloatingLabel) (f : FloatingLabel → Bool) :
    ((ol.map f).getD false = true) ↔ ∃ l, ol = some l ∧ f l = true := by
  cases ol <;> simp

/-- The classification touch_down computes when no label entry is None. -/
def touch_inside (s : SpeedDialState) (px py : ℤ) : Bool :=
  s.buttons.any (fun w => w.collide_point px py) ||
    s.labels.any fun ol => (ol.map fun l => l.collide_point px py).getD false

theorem touch_inside_iff (s : SpeedDialState) (px py : ℤ) :
    touch_inside s px py = true ↔
      (∃ w ∈ s.buttons, w.collide_point px py = true) ∨
      (∃ l : FloatingLabel, some l ∈ s.labels ∧ l.collide_point px py = true) := by
  unfold touch_inside
  simp only [Bool.or_eq_true, List.any_eq_true]
  constructor
  · rintro (⟨w, hw, hcw⟩ | ⟨ol, hol, hcol⟩)
    · exact Or.inl ⟨w, hw, hcw⟩
    · obtain ⟨l, rfl, hcl⟩ := (option_collide_getD ol _).mp hcol
      exact Or.inr ⟨l, hol, hcl⟩
  · rintro (⟨w, hw, hcw⟩ | ⟨l, hl, hcl⟩)
    · exact Or.inl ⟨w, hw, hcw⟩
    · exact Or.inr ⟨some l, hl, (option_collide_getD (some l) _).mpr ⟨l, rfl, hcl⟩⟩

theorem touch_down_ok (cfg : Config) (s : SpeedDialState) (px py : ℤ)
    (hlab : ∀ ol ∈ s.labels, ol ≠ none) :
    touch_down cfg s px py = Except.ok
      ({ s with touch_started_inside := some (touch_inside s px py) },
        if !cfg.auto_dismiss || touch_inside s px py then [TouchEffect.forward_down]
        else [], true) := by
  unfold touch_down
  rw [collide_any_ok s.buttons s.labels px py hlab]
  rfl

/-- C3 counterexample: in an open stack whose single entry has no hint label,
a touch that does collide with the stack button is not classified at all:
touch_down raises an AttributeError (None has no collide_point), against the
claim that every touch while open is classified by collision. -/
theorem touch_down_none_label_counterexample :
    exOpenNoLabel.labels = [none] ∧
    exOpenNoLabel.buttons.any (fun b => b.collide_point 100 100) = true ∧
    touch_down baseCfg exOpenNoLabel 100 100 = Except.error "AttributeError" :=
  ⟨rfl, by decide, rfl⟩

/-- C3 (amended): provided every entry has a hint label (no None entry in
_labels), touch_down classifies the touch as started inside exactly when it
collides with at least one stack button or label; and touch_up (with the
window recorded) invokes close_stack exactly when auto_dismiss is on and the
preceding touch_down classified the touch as started outside, else forwards
the event to the window. -/
theorem touch_classification_amended (cfg : Config) (s : SpeedDialState)
    (px py : ℤ) (b : Bool) (cs : List Nat)
    (hlab : ∀ ol ∈ s.labels, ol ≠ none)
    (hwin : s.win.window = some cs)
    (htsi : s.touch_started_inside = some b) :
    (∃ s1 e1, touch_down cfg s px py = Except.ok (s1, e1, true) ∧
      (s1.touch_started_inside = some true ∨ s1.touch_started_inside = some false) ∧
      (s1.touch_started_inside = some true ↔
        (∃ w ∈ s.buttons, w.collide_point px py = true) ∨
        (∃ l : FloatingLabel, some l ∈ s.labels ∧ l.collide_point px py = true))) ∧
    (cfg.auto_dismiss = true ∧ b = false →
      ∃ s2, touch_up cfg s = Except.ok (s2, [TouchEffect.close_invoked], true)) ∧
    (¬ (cfg.auto_dismiss = true ∧ b = false) →
      ∃ s2, touch_up cfg s = Except.ok (s2, [TouchEffect.forward_up], true)) := by
  refine ⟨?_, ?_, ?_⟩
  · refine ⟨{ s with touch_started_inside := some (touch_inside s px py) },
      (if !cfg.auto_dismiss || touch_inside s px py then [TouchEffect.forward_down]
       else []),
      touch_down_ok cfg s px py hlab, ?_, ?_⟩
    · cases hv : touch_inside s px py
      · exact Or.inr rfl
      · exact Or.inl rfl
    · show some (touch_inside s px py) = some true ↔ _
      rw [Option.some_inj]
      exact touch_inside_iff s px py
  · rintro ⟨had, hb⟩
    subst hb
    have hcond : (cfg.auto_dismiss && s.touch_started_inside == some false) = true := by
      rw [had, htsi]
      rfl
    unfold touch_up
    rw [if_pos hcond, close_stack_eq s cs hwin]
    refine ⟨{ close_stack_result s with touch_started_inside := none }, ?_⟩
    rfl
  · intro hnc
    have hcond : (cfg.auto_dismiss && s.touch_started_inside == some false) = false := by
      rw [htsi]
      cases had : cfg.auto_dismiss with
      | false => rfl
      | true =>
        cases hb : b with
        | false => exact (hnc ⟨had, hb⟩).elim
        | true => rfl
    unfold touch_up
    rw [if_neg (by rw [hcond]; exact Bool.false_ne_true)]
    refine ⟨{ s with touch_started_inside := none }, ?_⟩
    rfl

/-- Witness for C3 (amended): a touch that started inside is forwarded on
touch-up, not dismissed. -/
theorem touch_classification_amended_witness :
    exOpenInside.touch_started_inside = some true ∧
    (∃ s2, touch_up baseCfg exOpenInside =
      Except.ok (s2, [TouchEffect.forward_up], true)) :=
  ⟨rfl,
    (touch_classification_amended baseCfg exOpenInside 100 100 true [0, 1]
      (fun ol h => by
        rcases List.mem_singleton.mp h with rfl
        exact fun hc => Option.noConfusion hc)
      rfl rfl).2.2 (by simp)⟩

/-- C9: touch_up dismisses only when _touch_started_inside is exactly the
value False: with the flag still None it forwards the event to the window;
after every touch_up the flag is None again; and all three handlers consume
the window event by returning True. -/
theorem touch_up_reset_and_close_iff (cfg : Config) (s : SpeedDialState)
    (px py : ℤ) (cs : List Nat)
    (hwin : s.win.window = some cs)
    (hlab : ∀ ol ∈ s.labels, ol ≠ none) :
    (s.touch_started_inside = none →
      touch_up cfg s = Except.ok ({ s with touch_started_inside := none },
        [TouchEffect.forward_up], true)) ∧
    (∀ s2 effs r, touch_up cfg s = Except.ok (s2, effs, r) →
      s2.touch_started_inside = none ∧ r = true ∧
      (TouchEffect.close_invoked ∈ effs ↔
        cfg.auto_dismiss = true ∧ s.touch_started_inside = some false)) ∧
    (∃ s1 e1, touch_down cfg s px py = Except.ok (s1, e1, true)) ∧
    ((touch_move cfg s).2.2 = true) := by
  refine ⟨?_, ?_, ?_, rfl⟩
  · intro hnone
    have hcond : (cfg.auto_dismiss && s.touch_started_inside == some false) = false := by
      rw [hnone]
      cases cfg.auto_dismiss <;> rfl
    unfold touch_up
    rw [if_neg (by rw [hcond]; exact Bool.false_ne_true)]
  · intro s2 effs r h
    by_cases hcond : (cfg.auto_dismiss && s.touch_started_inside == some false) = true
    · have hboth : cfg.auto_dismiss = true ∧ s.touch_started_inside = some false := by
        have h2 := hcond
        simp only [Bool.and_eq_true, beq_iff_eq] at h2
        exact h2
      have had := hboth.1
      have htsi := hboth.2
      have heq : touch_up cfg s = Except.ok
          ({ close_stack_result s with touch_started_inside := none },
            [TouchEffect.close_invoked], true) := by
        unfold touch_up
        rw [if_pos hcond, close_stack_eq s cs hwin]
      rw [heq] at h
      injection h with h3
      injection h3 with ha h4
      injection h4 with hb hc
      refine ⟨by rw [← ha], hc.symm, ?_⟩
      rw [← hb]
      simp [had, htsi]
    · have heq : touch_up cfg s = Except.ok
          ({ s with touch_started_inside := none }, [TouchEffect.forward_up], true) := by
        unfold touch_up
        rw [if_neg hcond]
      rw [heq] at h
      injection h with h3
      injection h3 with ha h4
      injection h4 with hb hc
      refine ⟨by rw [← ha], hc.symm, ?_⟩
      rw [← hb]
      constructor
      · intro hf
        exact absurd (List.mem_singleton.mp hf) (by simp)
      · rintro ⟨had, htsi⟩
        exact absurd (by rw [had, htsi]; rfl) hcond
  · exact ⟨_, _, touch_down_ok cfg s px py hlab⟩

/-- Witness for C9: with the flag still None, touch-up forwards. -/
theorem touch_up_reset_and_close_iff_witness :
    exOpen.touch_started_inside = none ∧
    touch_up baseCfg exOpen = Except.ok
      ({ exOpen with touch_started_inside := none },
        [TouchEffect.forward_up], true) :=
  ⟨rfl,
    (touch_up_reset_and_close_iff baseCfg exOpen 100 100 [0, 1] rfl
      (fun ol h => by
        rcases List.mem_singleton.mp h with rfl
        exact fun hc => Option.noConfusion hc)).1 rfl⟩


/-! The hover hint handlers on_enter and on_leave. -/

/-- A configuration with hint animation enabled. -/
def hintCfg : Config :=
  { baseCfg with hint_animation := true }

/-- A button whose icon is the one-letter string a. -/
def exBtnA : BottomButton :=
  { wid := 0, icon := "a", x := 77, y := 77, width := 46, height := 46, opacity := 0 }

/-- A label with text t and width 10, paired with exBtnA. -/
def exLblT : FloatingLabel :=
  { wid := 1, text := "t", x := 133, y := 90, width := 10, height := 20, opacity := 1 }

/-- The open state holding exBtnA and exLblT. -/
def exOpenA : SpeedDialState :=
  { exOpen with buttons := [exBtnA], labels := [some exLblT] }

/-- A mapping that configures the icon ab for the label text t. -/
def exDataAB : List (String × DataVal) :=
  [("t", DataVal.str "ab")]

/-- C7 counterexample: with the mapping value the string ab and the button
icon a, on_enter starts a fade-in although the icon does not match the
configured icon ab: the disjunction in the source also accepts the first
character of a string value. -/
theorem on_enter_first_char_counterexample :
    on_enter hintCfg exOpenA exDataAB exBtnA =
      HoverResult.started (-43) FadeTarget.fade_in ∧
    spec_configured_icon (DataVal.str "ab") = some "ab" ∧
    exBtnA.icon = "a" ∧ ("a" : String) ≠ "ab" := by
  refine ⟨by decide, rfl, rfl, by decide⟩

/-- C7 (amended): for a bottom button with a paired label, while the stack is
open and hint animation is on, on_enter starts the background strip towards
-(label width + text offset) * direction and fades the label in exactly when
the button's icon equals the mapping value or equals the value's first
element (the first character for a string value), else fades it out; on_leave
under the same preconditions collapses the strip and fades the label out. -/
theorem on_enter_fade_amended (cfg : Config) (s : SpeedDialState)
    (data : List (String × DataVal)) (b : BottomButton) (l : FloatingLabel)
    (v : DataVal)
    (hstate : s.state = "open") (hhint : cfg.hint_animation = true)
    (hmem : b ∈ s.buttons)
    (hlab : s.labels.get? (s.buttons.indexOf b) = some (some l))
    (hv : data_lookup data l.text = some v)
    (hfst : py_eq_str_val b.icon v = true ∨ py_first v ≠ none) :
    (∃ ft, on_enter cfg s data b =
      HoverResult.started
        (-1 * (l.width + cfg.button_text_offset) *
          direction_vals cfg.label_direction) ft ∧
      (ft = FadeTarget.fade_in ↔
        (py_eq_str_val b.icon v = true ∨ py_first v = some b.icon))) ∧
    on_leave cfg s b = HoverResult.started 0 FadeTarget.fade_out := by
  constructor
  · unfold on_enter
    rw [if_pos hstate, if_pos hmem, hlab]
    dsimp only
    rw [if_pos hhint, hv]
    dsimp only
    by_cases hpe : py_eq_str_val b.icon v = true
    · rw [if_pos hpe]
      exact ⟨FadeTarget.fade_in, rfl, by simp [hpe]⟩
    · rw [if_neg hpe]
      cases hf : py_first v with
      | none =>
        rcases hfst with h | h
        · exact absurd h hpe
        · exact absurd hf h
      | some f =>
        dsimp only
        by_cases hbe : (b.icon == f) = true
        · rw [if_pos hbe]
          refine ⟨FadeTarget.fade_in, rfl, ?_⟩
          have hfb : f = b.icon := (eq_of_beq hbe).symm
          simp [hfb]
        · rw [if_neg hbe]
          refine ⟨FadeTarget.fade_out, rfl, ?_⟩
          constructor
          · intro hc
            exact absurd hc (by simp)
          · rintro (hc | hc)
            · exact absurd hc hpe
            · have hbf : b.icon = f := (Option.some_inj.mp hc).symm
              exact absurd (beq_iff_eq.mpr hbf) hbe
  · unfold on_leave
    rw [if_pos hstate, if_pos hmem, hlab]
    dsimp only
    rw [if_pos hhint]

/-- Witness for C7 (amended) at the concrete hover example. -/
theorem on_enter_fade_amended_witness :
    exOpenA.state = "open" ∧ hintCfg.hint_animation = true ∧
    on_leave hintCfg exOpenA exBtnA = HoverResult.started 0 FadeTarget.fade_out :=
  ⟨rfl, rfl,
    (on_enter_fade_amended hintCfg exOpenA exDataAB exBtnA exLblT (DataVal.str "ab")
      rfl rfl (by decide) (by decide) (by decide) (Or.inr (by decide))).2⟩

/-! Label positioning. -/

/-- A configuration with display density 2 and labels on the left. -/
def leftCfg : Config :=
  { baseCfg with
    density := 2,
    label_direction := "left",
    button_text_offset := 5,
    parent_center_x := 0 }

/-- C8 counterexample: at density 2, a left-direction label of width 10 ends
up with its right edge at center_x - offset - dp(width) + width = -15, not at
center_x - offset = -5 as the claim states: the source subtracts dp(width)
rather than the width. -/
theorem set_pos_labels_left_edge_counterexample :
    (set_pos_labels_core leftCfg 0 exLblT).x +
      (set_pos_labels_core leftCfg 0 exLblT).width ≠
      leftCfg.parent_center_x - leftCfg.button_text_offset := by
  decide

theorem set_center_y_center (l : FloatingLabel) (v : ℤ) :
    (l.set_center_y v).center_y = v := by
  simp only [FloatingLabel.set_center_y, FloatingLabel.center_y]
  omega

/-- C8 (amended): set_pos_labels places the label's left edge at the parent's
center_x plus the text offset for direction right; for direction left the x
position is center_x minus the offset minus dp of the label width, so the
right edge sits at center_x minus the offset exactly when the density is 1;
vertically the label is centered at the parent's center_y plus the stored
local offset at its index. -/
theorem set_pos_labels_amended (cfg : Config) (lp : List ℤ) (i : Nat)
    (l : FloatingLabel) :
    (cfg.label_direction = "right" →
      (set_pos_labels cfg lp i l).x =
        cfg.parent_center_x + cfg.button_text_offset) ∧
    (cfg.label_direction = "left" →
      (set_pos_labels cfg lp i l).x =
        cfg.parent_center_x - cfg.button_text_offset - dp cfg.density l.width ∧
      (cfg.density = 1 →
        (set_pos_labels cfg lp i l).x + (set_pos_labels cfg lp i l).width =
          cfg.parent_center_x - cfg.button_text_offset)) ∧
    (set_pos_labels cfg lp i l).center_y = cfg.parent_center_y + lp.getD i 0 ∧
    (set_pos_labels cfg lp i l).width = l.width := by
  refine ⟨?_, ?_, ?_, rfl⟩
  · intro hdir
    show (cfg.parent_center_x + cfg.button_text_offset * direction_vals cfg.label_direction -
      (if cfg.label_direction = "left" then dp cfg.density l.width else 0)) =
      cfg.parent_center_x + cfg.button_text_offset
    rw [hdir]
    simp [direction_vals]
  · intro hdir
    constructor
    · show (cfg.parent_center_x + cfg.button_text_offset * direction_vals cfg.label_direction -
        (if cfg.label_direction = "left" then dp cfg.density l.width else 0)) =
        cfg.parent_center_x - cfg.button_text_offset - dp cfg.density l.width
      rw [hdir]
      simp [direction_vals]
      ring
    · intro hden
      show (cfg.parent_center_x + cfg.button_text_offset * direction_vals cfg.label_direction -
        (if cfg.label_direction = "left" then dp cfg.density l.width else 0)) + l.width =
        cfg.parent_center_x - cfg.button_text_offset
      rw [hdir, hden]
      simp [direction_vals, dp]
      ring
  · exact set_center_y_center _ _

/-- Witness for C8 (amended): a right-direction label sits at center_x plus
the text offset. -/
theorem set_pos_labels_amended_witness :
    baseCfg.label_direction = "right" ∧
    (set_pos_labels baseCfg [0] 0 exLblT).x =
      baseCfg.parent_center_x + baseCfg.button_text_offset :=
  ⟨rfl, (set_pos_labels_amended baseCfg [0] 0 exLblT).1 rfl⟩

/-! The deferred rebuild of on_data. -/

/-- Default entry used by positional lookups in statements. -/
def dfltEntry : String × DataVal := ("", DataVal.str "")

theorem set_pos_bottom_buttons_core_icon (cfg : Config) (o : ℤ) (b : BottomButton) :
    (set_pos_bottom_buttons_core cfg o b).icon = b.icon := rfl

theorem set_pos_labels_core_text (cfg : Config) (o : ℤ) (l : FloatingLabel) :
    (set_pos_labels_core cfg o l).text = l.text := rfl

theorem on_data_build_go_ok (cfg : Config) (entries : List (String × DataVal)) :
    ∀ (i : Nat) (bs : List BottomButton) (ls : List (Option FloatingLabel))
      (lps : List ℤ),
    on_data_build_go cfg i entries = Except.ok (bs, ls, lps) →
    (bs.length = entries.length ∧ ls.length = entries.length ∧
      lps.length = entries.length ∧
      ∀ j, j < entries.length →
        ((ls.getD j none).map FloatingLabel.text =
          (if (entries.getD j dfltEntry).1 = "" then none
           else some (entries.getD j dfltEntry).1)) ∧
        name_icon (entries.getD j dfltEntry).2 =
          some ((bs.getD j (new_bottom_button cfg 0 "")).icon)) := by
  induction entries with
  | nil =>
    intro i bs ls lps h
    simp only [on_data_build_go] at h
    injection h with h1
    injection h1 with h2 h3
    injection h3 with h4 h5
    subst h2
    subst h4
    subst h5
    exact ⟨rfl, rfl, rfl, fun j hj => absurd hj (by simp)⟩
  | cons e rest ih =>
    obtain ⟨name, v⟩ := e
    intro i bs ls lps h
    simp only [on_data_build_go] at h
    cases hni : name_icon v with
    | none =>
      rw [hni] at h
      simp at h
    | some icon =>
      rw [hni] at h
      cases hgo : on_data_build_go cfg (i + 1) rest with
      | error e2 =>
        rw [hgo] at h
        simp at h
      | ok r =>
        obtain ⟨bs1, ls1, lps1⟩ := r
        rw [hgo] at h
        dsimp only at h
        injection h with h1
        injection h1 with h2 h3
        injection h3 with h4 h5
        subst h2
        subst h4
        subst h5
        obtain ⟨l1, l2, l3, hj⟩ := ih (i + 1) bs1 ls1 lps1 hgo
        refine ⟨by simp [l1], by simp [l2], by simp [l3], ?_⟩
        intro j hj2
        cases j with
        | zero =>
          constructor
          · by_cases hname : name = ""
            · simp [hname]
            · simp [hname, set_pos_labels_core_text, new_floating_label,
                Option.map_some, set_pos_labels_core, FloatingLabel.set_center_y]
          · simp [hni, set_pos_bottom_buttons_core, new_bottom_button,
              BottomButton.set_center_x, BottomButton.set_center_y]
        | succ j2 =>
          have hr := hj j2 (by simpa using hj2)
          simpa using hr

/-- C1: after the deferred rebuild of on_data completes, the three sequences
have the length of the data mapping and follow its entry order: button i
carries the icon of entry i, and label i carries entry i's text and is None
exactly when that text is empty; before the rebuild is scheduled, the old
widgets are removed from the window (whose child list holds no duplicates)
and the three sequences are reset to empty. -/
theorem on_data_alignment (cfg : Config) (s s2 : SpeedDialState)
    (entries : List (String × DataVal))
    (hnd : ∀ cs, s.win.window = some cs → cs.Nodup)
    (hok : on_data_run cfg s entries = Except.ok s2) :
    s2.buttons.length = entries.length ∧
    s2.labels.length = entries.length ∧
    s2.local_positions.length = entries.length ∧
    (∀ j, j < entries.length →
      ((s2.labels.getD j none = none) ↔ (entries.getD j dfltEntry).1 = "") ∧
      ((s2.labels.getD j none).map FloatingLabel.text =
        (if (entries.getD j dfltEntry).1 = "" then none
         else some (entries.getD j dfltEntry).1)) ∧
      name_icon (entries.getD j dfltEntry).2 =
        some ((s2.buttons.getD j (new_bottom_button cfg 0 "")).icon)) ∧
    (on_data_reset s).buttons = [] ∧
    (on_data_reset s).labels = [] ∧
    (on_data_reset s).local_positions = [] ∧
    (∀ w ∈ stack_widget_ids s.buttons s.labels,
      count_children (on_data_reset s).win w = 0) := by
  unfold on_data_run on_data_build at hok
  cases hgo : on_data_build_go cfg 0 entries with
  | error e =>
    rw [hgo] at hok
    simp at hok
  | ok r =>
    obtain ⟨bs, ls, lps⟩ := r
    rw [hgo] at hok
    dsimp only at hok
    injection hok with hok2
    obtain ⟨L1, L2, L3, HJ⟩ := on_data_build_go_ok cfg entries 0 bs ls lps hgo
    have hbs : s2.buttons = bs := by rw [← hok2]
    have hls : s2.labels = ls := by rw [← hok2]
    have hlps : s2.local_positions = lps := by rw [← hok2]
    refine ⟨by rw [hbs]; exact L1, by rw [hls]; exact L2, by rw [hlps]; exact L3,
      ?_, rfl, rfl, rfl,
      fun w hw => foldl_remove_widget_count_zero
        (stack_widget_ids s.buttons s.labels) s.win hnd w hw⟩
    intro j hj
    obtain ⟨ht, hicon⟩ := HJ j hj
    rw [hls, hbs]
    refine ⟨?_, ht, hicon⟩
    constructor
    · intro hnone
      by_cases hname : (entries.getD j dfltEntry).1 = ""
      · exact hname
      · rw [if_neg hname, hnone] at ht
        simp at ht
    · intro hname
      rw [if_pos hname] at ht
      exact Option.map_eq_none'.mp ht

/-- Entries used by the C1 witness: one labelled action, one without a
label. -/
def exEntries : List (String × DataVal) :=
  [("add", DataVal.str "plus"), ("", DataVal.list ["minus"])]

/-- The state after running on_data on the open example state with
exEntries. -/
def exRebuilt : SpeedDialState :=
  ((on_data_run baseCfg exOpen exEntries).toOption).getD exOpen

/-- Witness for C1: the rebuild on two entries yields aligned sequences, and
the second entry (empty name) gets no label. -/
theorem on_data_alignment_witness :
    ([0, 1] : List Nat).Nodup ∧
    exOpen.win.window = some [0, 1] ∧
    on_data_run baseCfg exOpen exEntries = Except.ok exRebuilt ∧
    exRebuilt.buttons.length = exEntries.length ∧
    exRebuilt.labels.getD 1 none = none :=
  ⟨by decide, rfl, by rfl,
    (on_data_alignment baseCfg exOpen exRebuilt exEntries
      (fun cs hcs => by
        have h2 : some ([0, 1] : List Nat) = some cs := hcs
        injection h2 with h3
        rw [← h3]
        decide)
      (by rfl)).1,
    by rfl⟩


end SpeedDial
